import Mathlib

/-!
Verification of the `vercre/dwn` Decentralized Web Node message engine.

Each section shallowly embeds one part of the Rust source
(`src/store/data.rs`, `src/records/delete.rs`, `src/protocols/configure.rs`,
`src/records.rs`, `src/records/query.rs`, `src/messages/query.rs`,
`src/records/read.rs`) as executable Lean definitions, and proves or refutes
the documented properties of that part.  Machine integers (`usize`) are
modelled as `Nat`; timestamps are microsecond counts (`Nat`); fallible Rust
functions returning `Result` become functions into `Except DwnError` or
explicitly threaded `State × Option DwnError` pairs.
-/

namespace DWN

/-- Error taxonomy of the engine (crate::Error).  Only the variants reached by
the embedded handlers are modelled; each carries its detail string. -/
inductive DwnError where
  | badRequest (detail : String)
  | unauthorized (detail : String)
  | forbidden (detail : String)
  | notFound (detail : String)
  | conflict (detail : String)
  | unexpected (detail : String)
deriving DecidableEq, Repr

/-! ## Data store (`src/store/data.rs`)

The block store keys blocks by CID (content identifier).  The embedding keys
blocks by an inductive `DataKey`: a chunk block is keyed by its own content
(`DataKey.chunk`, the ideal collision-free content address of the CBOR
encoding of `Ipld::Bytes`), while the externally supplied `data_cid` string
under which `put` stores the root block is `DataKey.external`.  This encodes
the content-addressing assumption that the SHA-256 CID of a chunk block never
collides with a distinct block or with the caller-computed CID of the whole
payload. -/

/-- Keys of the per-owner block store used by `data.rs`. -/
inductive DataKey where
  | chunk (bs : List Nat)
  | external (s : String)
deriving DecidableEq, Repr

/-- The IPLD block values written by `data.rs`: `Ipld::Bytes` chunk blocks and
the root `Ipld::List` of links to chunk blocks. -/
inductive Ipld where
  | bytes (bs : List Nat)
  | list (links : List DataKey)
deriving DecidableEq, Repr

/-- A per-owner block store surface (`BlockStore` restricted to one owner). -/
def BlockMap : Type := DataKey → Option Ipld

/-- Store a block under a key (`BlockStore::put`): last writer wins. -/
def BlockMap.insert (m : BlockMap) (k : DataKey) (v : Ipld) : BlockMap :=
  fun k2 => if k2 = k then some v else m k2

/-- The maximum size of a block (`CHUNK_SIZE` in `data.rs`). -/
def CHUNK_SIZE : Nat := 16

/-- The chunking performed by the read loop of `data::put`: each iteration
reads at most `CHUNK_SIZE` bytes until the reader is exhausted. -/
def toChunks (data : List Nat) : List (List Nat) :=
  match data with
  | [] => []
  | a :: rest => ((a :: rest).take CHUNK_SIZE) :: toChunks ((a :: rest).drop CHUNK_SIZE)
termination_by data.length
decreasing_by
  simp only [List.length_drop, List.length_cons, CHUNK_SIZE]
  omega

/-- Embedding of `data::put` (`src/store/data.rs` lines 20-57): store each
chunk as an `Ipld::Bytes` block keyed by its CID, then store a root
`Ipld::List` of the chunk links under the given `data_cid`; return the byte
count accumulated chunk by chunk.  (The Rust function additionally returns
the root block's own CID string, which no caller in the claims uses.) -/
def dataPut (store : BlockMap) (dataCid : DataKey) (data : List Nat) : BlockMap × Nat :=
  let chunks := toChunks data
  let store1 := chunks.foldl (fun s c => s.insert (DataKey.chunk c) (Ipld.bytes c)) store
  let store2 := store1.insert dataCid (Ipld.list (chunks.map DataKey.chunk))
  (store2, (chunks.map List.length).sum)

/-- The link-follow loop of `data::get`: fetch each linked block in order and
require it to decode to `Ipld::Bytes`, concatenating payloads sequentially.
A missing or non-`Bytes` block yields `none` (Rust `Ok(None)`). -/
def getLinks (store : BlockMap) : List DataKey → Option (List Nat)
  | [] => some []
  | l :: rest =>
    match store l with
    | none => none
    | some (Ipld.list _) => none
    | some (Ipld.bytes bs) =>
      match getLinks store rest with
      | none => none
      | some tail => some (bs ++ tail)

/-- Embedding of `data::get` (`src/store/data.rs` lines 60-97): fetch the root
block under `data_cid`; it must be an `Ipld::List` of links; reassemble the
payload by following the links sequentially. -/
def dataGet (store : BlockMap) (dataCid : DataKey) : Option (List Nat) :=
  match store dataCid with
  | none => none
  | some (Ipld.bytes _) => none
  | some (Ipld.list links) => getLinks store links

theorem toChunks_flatten (data : List Nat) : (toChunks data).flatten = data := by
  induction data using toChunks.induct with
  | case1 => simp [toChunks]
  | case2 a rest ih =>
    rw [toChunks]
    simp only [List.flatten_cons, ih]
    exact List.take_append_drop _ _

theorem toChunks_le (data : List Nat) : ∀ c ∈ toChunks data, c.length ≤ CHUNK_SIZE := by
  induction data using toChunks.induct with
  | case1 => simp [toChunks]
  | case2 a rest ih =>
    rw [toChunks]
    intro c hc
    rcases List.mem_cons.mp hc with h | h
    · subst h; exact List.length_take_le _ _
    · exact ih c h

theorem foldl_insert_not_mem (s : BlockMap) (cs : List (List Nat)) (k : DataKey)
    (h : ∀ c ∈ cs, DataKey.chunk c ≠ k) :
    (cs.foldl (fun s c => s.insert (DataKey.chunk c) (Ipld.bytes c)) s) k = s k := by
  induction cs generalizing s with
  | nil => rfl
  | cons c rest ih =>
    rw [List.foldl_cons, ih _ (fun c hc => h c (List.mem_cons_of_mem _ hc))]
    simp only [BlockMap.insert]
    rw [if_neg]
    intro he
    exact h c (List.mem_cons_self _ _) he.symm

theorem foldl_insert_mem (s : BlockMap) (cs : List (List Nat)) (c : List Nat)
    (h : c ∈ cs) :
    (cs.foldl (fun s c => s.insert (DataKey.chunk c) (Ipld.bytes c)) s) (DataKey.chunk c)
      = some (Ipld.bytes c) := by
  induction cs generalizing s with
  | nil => cases h
  | cons c0 rest ih =>
    rw [List.foldl_cons]
    by_cases hm : c ∈ rest
    · exact ih _ hm
    · have hc0 : c = c0 := by
        rcases List.mem_cons.mp h with h | h
        · exact h
        · exact absurd h hm
      subst hc0
      rw [foldl_insert_not_mem]
      · simp [BlockMap.insert]
      · intro c2 hc2 he
        apply hm
        have : c2 = c := by
          injection he
        rwa [← this]

theorem getLinks_of_chunks (store : BlockMap) (cs : List (List Nat))
    (h : ∀ c ∈ cs, store (DataKey.chunk c) = some (Ipld.bytes c)) :
    getLinks store (cs.map DataKey.chunk) = some cs.flatten := by
  induction cs with
  | nil => rfl
  | cons c rest ih =>
    simp only [List.map_cons, getLinks, h c (List.mem_cons_self _ _),
      ih (fun c hc => h c (List.mem_cons_of_mem _ hc)), List.flatten_cons]

/-- C9: storing a byte payload chunks it into IPLD `Bytes` blocks of at most
16 bytes linked from a root `List` block stored under the given `data_cid`;
`put` returns a byte count equal to the payload length; and `get` with the
same `data_cid` returns exactly the original payload bytes in order. -/
theorem data_put_get_roundtrip (store : BlockMap) (name : String) (data : List Nat) :
    (dataPut store (DataKey.external name) data).2 = data.length
    ∧ (dataPut store (DataKey.external name) data).1 (DataKey.external name)
        = some (Ipld.list ((toChunks data).map DataKey.chunk))
    ∧ (∀ c ∈ toChunks data,
        (dataPut store (DataKey.external name) data).1 (DataKey.chunk c)
          = some (Ipld.bytes c) ∧ c.length ≤ CHUNK_SIZE)
    ∧ dataGet (dataPut store (DataKey.external name) data).1 (DataKey.external name)
        = some data := by
  have hstore : (dataPut store (DataKey.external name) data).1
      = BlockMap.insert
          ((toChunks data).foldl (fun s c => s.insert (DataKey.chunk c) (Ipld.bytes c)) store)
          (DataKey.external name) (Ipld.list ((toChunks data).map DataKey.chunk)) := rfl
  have hchunk : ∀ c ∈ toChunks data,
      (dataPut store (DataKey.external name) data).1 (DataKey.chunk c)
        = some (Ipld.bytes c) := by
    intro c hc
    rw [hstore]
    unfold BlockMap.insert
    rw [if_neg (by intro h; cases h)]
    exact foldl_insert_mem store (toChunks data) c hc
  have hroot : (dataPut store (DataKey.external name) data).1 (DataKey.external name)
      = some (Ipld.list ((toChunks data).map DataKey.chunk)) := by
    rw [hstore]
    simp [BlockMap.insert]
  refine ⟨?_, hroot, fun c hc => ⟨hchunk c hc, toChunks_le data c hc⟩, ?_⟩
  · show (List.map List.length (toChunks data)).sum = data.length
    rw [← List.length_flatten, toChunks_flatten]
  · unfold dataGet
    rw [hroot]
    show getLinks _ _ = some data
    rw [getLinks_of_chunks _ _ hchunk, toChunks_flatten]

/-! ## Records data model (`src/records/delete.rs` and surroundings)

The delete pipeline stores `Entry` values (message plus flattened indexes) in
a message store, appends CIDs to an event log, and keeps data blocks in a
data store keyed by `(record_id, data_cid)`.  Message CIDs are carried as an
explicit `cid` field on each message, standing for its content address (the
fixtures below always use pairwise distinct strings). -/

/-- Records method of a stored message. -/
inductive RMethod where
  | write
  | delete
deriving DecidableEq, Repr

/-- A `RecordsWrite` message, restricted to the fields the delete and read
pipelines read.  The `initial` flag models `Write::is_initial` (spec I1: the
initial write is the one whose `record_id` equals the entry id of its
descriptor and author); `write.rs` is not under `src/`, so the flag
abstracts that check.  `encodedData` carries the decoded bytes of
`encoded_data` (base64url decoding is modelled as the identity on the byte
payload). -/
structure WriteMsg where
  cid : String
  recordId : String
  parentId : Option String
  dataCid : String
  ts : Nat
  author : String
  initial : Bool
  protocol : Option String
  published : Option Bool := none
  recipient : Option String := none
  encodedData : Option (List Nat) := none
deriving DecidableEq, Repr

/-- A `RecordsDelete` message (descriptor fields of `Delete` in `delete.rs`). -/
structure DeleteMsg where
  cid : String
  recordId : String
  prune : Bool
  ts : Nat
  author : String
deriving DecidableEq, Repr

/-- The message stored in an `Entry` (`EntryType` for the Records interface). -/
inductive REntryType where
  | write (w : WriteMsg)
  | delete (d : DeleteMsg)
deriving DecidableEq, Repr

/-- A stored entry: message plus flattened index fields (spec §3 `Entry`). -/
structure Entry where
  message : REntryType
  indexes : List (String × String)
deriving DecidableEq, Repr

/-- The CID of an entry is the CID of its message. -/
def Entry.cid (e : Entry) : String :=
  match e.message with
  | REntryType.write w => w.cid
  | REntryType.delete d => d.cid

/-- Descriptor `message_timestamp` of an entry (microseconds). -/
def Entry.ts (e : Entry) : Nat :=
  match e.message with
  | REntryType.write w => w.ts
  | REntryType.delete d => d.ts

/-- Descriptor `method` of an entry. -/
def Entry.method (e : Entry) : RMethod :=
  match e.message with
  | REntryType.write _ => RMethod.write
  | REntryType.delete _ => RMethod.delete

/-- Set one flattened index, overwriting any existing value for the key
(`Entry` index insertion). -/
def setIndex (ix : List (String × String)) (k v : String) : List (String × String) :=
  ix.filter (fun p => p.1 ≠ k) ++ [(k, v)]

/-- Overlay the key-value pairs of `extra` onto `base`, later pairs winning
(the `for (key, value) in write.build_indexes()` loop of `delete.rs`). -/
def overlayIndexes (base extra : List (String × String)) : List (String × String) :=
  extra.foldl (fun ix kv => setIndex ix kv.1 kv.2) base

/-- Flattened indexes built for a `Delete` message (`Delete::build_indexes`,
`delete.rs` lines 150-164). -/
def DeleteMsg.buildIndexes (d : DeleteMsg) : List (String × String) :=
  [("interface", "Records"), ("method", "Delete"), ("recordId", d.recordId),
   ("messageTimestamp", toString d.ts), ("author", d.author), ("initial", "false")]

/-- Modelled from the spec: `Write::build_indexes` (`src/records/write.rs` is
not under `src/`).  Per spec §3 and §4.5.2 a write entry is indexed by its
queryable scalar fields, and the delete entry produced by overlaying these
onto `Delete::build_indexes` keeps `method = Delete` and `initial = false`,
so the write indexes carry neither a `method` nor an `initial` key. -/
def WriteMsg.buildIndexes (w : WriteMsg) : List (String × String) :=
  [("recordId", w.recordId), ("messageTimestamp", toString w.ts),
   ("author", w.author), ("dataCid", w.dataCid)]
  ++ (match w.parentId with
      | some p => [("parentId", p)]
      | none => [])

/-- Modelled from the spec: the entry persisted for a write carries the
write's indexes with the archived flag `initial` initially `"false"`; the
flag is flipped to `"true"` by `delete_earlier` when the write is superseded
(spec I4). -/
def Entry.ofWrite (w : WriteMsg) : Entry :=
  { message := REntryType.write w, indexes := setIndex w.buildIndexes "initial" "false" }

/-- Entry persisted for a delete message (`Entry::from(&Delete)` with the
delete's own indexes, before the initial write's indexes are overlaid). -/
def Entry.ofDelete (d : DeleteMsg) : Entry :=
  { message := REntryType.delete d, indexes := d.buildIndexes }

/-- Durable state touched by the delete pipeline: message store entries, event
log CIDs, and data-store blocks keyed by `(record_id, data_cid)`. -/
structure State where
  entries : List Entry
  eventLog : List String
  data : List (String × String)
deriving DecidableEq, Repr

/-- `MessageStore::put`: last-writer-wins on the message CID (spec §4.3). -/
def State.msgPut (s : State) (e : Entry) : State :=
  { s with entries := s.entries.filter (fun x => x.cid ≠ e.cid) ++ [e] }

/-- `MessageStore::delete` by message CID. -/
def State.msgDelete (s : State) (c : String) : State :=
  { s with entries := s.entries.filter (fun x => x.cid ≠ c) }

/-- `EventLog::append`. -/
def State.logAppend (s : State) (c : String) : State :=
  { s with eventLog := s.eventLog ++ [c] }

/-- `EventLog::delete` by message CID. -/
def State.logDelete (s : State) (c : String) : State :=
  { s with eventLog := s.eventLog.filter (fun x => x ≠ c) }

/-- `DataStore::delete` for a `(record_id, data_cid)` pair. -/
def State.dataDelete (s : State) (rid dcid : String) : State :=
  { s with data := s.data.filter (fun p => ¬(p.1 = rid ∧ p.2 = dcid)) }

/-- Modelled from the spec: the query parameters produced by
`RecordsQueryBuilder` (`src/store.rs` is not under `src/`) as used by the
delete pipeline: an equality filter on `record_id` or `parent_id`, an
optional method restriction (`method(None)` clears it; the children walk of
§4.5.2 covers both child writes and child deletes), and the
`include_archived` switch that admits entries whose `initial` index is
`"true"`. -/
structure QueryParams where
  recordId : Option String := none
  parentId : Option String := none
  method : Option RMethod := none
  includeArchived : Bool := false
deriving DecidableEq, Repr

/-- Index-level match of an entry against query parameters. -/
def QueryParams.matches (q : QueryParams) (e : Entry) : Bool :=
  (match q.recordId with
   | some r => e.indexes.lookup "recordId" = some r
   | none => true)
  && (match q.parentId with
      | some p => e.indexes.lookup "parentId" = some p
      | none => true)
  && (match q.method with
      | some m => e.method = m
      | none => true)
  && (q.includeArchived || !(e.indexes.lookup "initial" = some "true"))

/-- Insert into a list sorted by `le` (stable, matching `Vec::sort_by`). -/
def insertLe (le : Entry → Entry → Bool) (a : Entry) : List Entry → List Entry
  | [] => [a]
  | b :: l => if le a b then a :: b :: l else b :: insertLe le a l

/-- Stable insertion sort by `le`. -/
def sortLe (le : Entry → Entry → Bool) : List Entry → List Entry
  | [] => []
  | a :: l => insertLe le a (sortLe le l)

/-- Lexicographic comparison of character lists by code point. -/
def charListLt : List Char → List Char → Bool
  | _, [] => false
  | [], _ :: _ => true
  | a :: as, b :: bs =>
    if a.toNat < b.toNat then true
    else if b.toNat < a.toNat then false
    else charListLt as bs

/-- Lexicographic string comparison (byte-wise CID comparison of the store). -/
def strLt (a b : String) : Bool :=
  charListLt a.data b.data

/-- Ascending order on `(message_timestamp, message_cid)` (spec §4.2: sort
with a stable tie-break on the message CID). -/
def entryLe (a b : Entry) : Bool :=
  a.ts < b.ts || (a.ts = b.ts && !(strLt b.cid a.cid))

/-- Modelled from the spec: `MessageStore::query` for the delete pipeline —
filter by the indexes, sort ascending by `(message_timestamp, message_cid)`
(spec §4.2/§4.3). -/
def State.query (s : State) (q : QueryParams) : List Entry :=
  sortLe entryLe (s.entries.filter (fun e => q.matches e))

/-! ## Records delete pipeline (`src/records/delete.rs`) -/

/-- Authorization of a delete (`Delete::authorize`, `delete.rs` lines
167-189): the owner is always permitted; otherwise a protocol record defers
to the protocol engine, abstracted as `oracle` (`protocol.rs` rule
evaluation is not needed by the claims); otherwise the delete is forbidden.
The delegated-grant path is not modelled: embedded messages carry no
delegated grant. -/
def authorizeDelete (oracle : DeleteMsg → WriteMsg → Bool) (owner : String)
    (d : DeleteMsg) (w : WriteMsg) : Option DwnError :=
  if d.author = owner then none
  else
    match w.protocol with
    | some _ =>
      if oracle d w then none else some (DwnError.forbidden "delete failed protocol authorization")
    | none => some (DwnError.forbidden "delete request failed authorization")

/-- Group map construction of `delete_children` (`delete.rs` lines 267-283),
embedded exactly as written: `record_id_map.get_mut(record_id)` finds an
existing vector to push into, but when the key is absent the entry is pushed
into the fresh temporary vector produced by `unwrap_or(&mut Vec::new())`,
which is dropped immediately — the map itself is never extended. -/
def groupByRecordId (children : List Entry) : List (String × List Entry) :=
  children.foldl
    (fun m e =>
      let rid :=
        match e.message with
        | REntryType.write w => w.recordId
        | REntryType.delete d => d.recordId
      match m.lookup rid with
      | some v => m.map (fun kv => if kv.1 = rid then (kv.1, v ++ [e]) else kv)
      | none => m)
    []

/-- Embedding of `purge` (`delete.rs` lines 296-321): keep only the writes,
sort them from earliest to most recent, delete the data of the most recent
write, then delete every record's message entry and event-log entry. -/
def purge (s : State) (records : List Entry) : State × Option DwnError :=
  let writes := records.filter (fun m => m.method = RMethod.write)
  let sorted := sortLe (fun a b => a.ts ≤ b.ts) writes
  match sorted.getLast? with
  | none => (s, none)
  | some latest =>
    match latest.message with
    | REntryType.delete _ => (s, some (DwnError.unexpected "latest record is not a RecordsWrite"))
    | REntryType.write w =>
      let s1 := s.dataDelete w.recordId w.dataCid
      let s2 := records.foldl (fun st m => (st.logDelete m.cid).msgDelete m.cid) s1
      (s2, none)

/-- Embedding of `delete_children` (`delete.rs` lines 257-293): fetch child
records by `parent_id`, group them by `record_id`, then recursively purge
each group's descendants and entries.  The Rust recursion is
`async_recursion` on the record tree; the embedding uses explicit fuel,
returning an error when exhausted (never reached from `runDelete`, which
passes more fuel than there are entries). -/
def deleteChildren (fuel : Nat) (s : State) (recordId : String) : State × Option DwnError :=
  match fuel with
  | 0 => (s, some (DwnError.unexpected "recursion limit reached"))
  | fuel + 1 =>
    let children := s.query { parentId := some recordId }
    if children.isEmpty then (s, none)
    else
      (groupByRecordId children).foldl
        (fun acc kv =>
          match acc.2 with
          | some _ => acc
          | none =>
            let r1 := deleteChildren fuel acc.1 kv.1
            match r1.2 with
            | some _ => r1
            | none => purge r1.1 kv.2)
        (s, none)

/-- Embedding of `delete_data` (`delete.rs` lines 354-376): keep the data if
the latest message is a write referencing the same `data_cid`, otherwise
delete the existing write's data block. -/
def deleteData (s : State) (existing latest : Entry) : State × Option DwnError :=
  match existing.message with
  | REntryType.delete _ => (s, some (DwnError.unexpected "unexpected message type"))
  | REntryType.write ew =>
    match latest.message with
    | REntryType.write lw =>
      if ew.dataCid = lw.dataCid then (s, none)
      else (s.dataDelete ew.recordId ew.dataCid, none)
    | REntryType.delete _ => (s.dataDelete ew.recordId ew.dataCid, none)

/-- Embedding of `delete_earlier` (`delete.rs` lines 326-351): for every
existing entry older than the latest, delete its data; an initial write is
retained but re-put with its `initial` index set to `"true"`, while any other
entry is removed from the message store and event log. -/
def deleteEarlier (s : State) (latest : Entry) (existing : List Entry) :
    State × Option DwnError :=
  existing.foldl
    (fun acc entry =>
      match acc.2 with
      | some _ => acc
      | none =>
        if entry.ts < latest.ts then
          let r := deleteData acc.1 entry latest
          match r.2 with
          | some _ => r
          | none =>
            match entry.message with
            | REntryType.delete _ => (r.1, some (DwnError.unexpected "expected RecordsWrite message"))
            | REntryType.write w =>
              if w.initial then
                (r.1.msgPut { message := REntryType.write w,
                              indexes := setIndex (Entry.ofWrite w).indexes "initial" "true" }, none)
              else
                ((r.1.msgDelete entry.cid).logDelete entry.cid, none)
        else acc)
    (s, none)

/-- Embedding of the delete task body (`delete`, `delete.rs` lines 207-254):
re-query including archived entries, re-check ordering, persist the
searchable delete entry (initial write indexes overlaid), append it to the
event log, prune descendants when requested and purge superseded entries.
`EventStream::emit` has no durable-store effect and is not modelled. -/
def runDelete (s : State) (d : DeleteMsg) : State × Option DwnError :=
  let es := s.query { recordId := some d.recordId, includeArchived := true }
  match es with
  | [] => (s, some (DwnError.notFound "no matching records found"))
  | e0 :: rest =>
    if rest.length + 1 > 2 then (s, some (DwnError.unexpected "multiple messages exist"))
    else
      let latest := rest.getLastD e0
      if d.ts < latest.ts then (s, some (DwnError.conflict "newer record already exists"))
      else
        match e0.message with
        | REntryType.delete _ => (s, some (DwnError.unexpected "expected RecordsWrite message"))
        | REntryType.write w =>
          if !w.initial then (s, some (DwnError.unexpected "initial write is not earliest message"))
          else
            let deleteEntry : Entry :=
              { message := REntryType.delete d,
                indexes := overlayIndexes d.buildIndexes w.buildIndexes }
            let s1 := (s.msgPut deleteEntry).logAppend deleteEntry.cid
            let pruned :=
              if d.prune then deleteChildren (s1.entries.length + 1) s1 d.recordId
              else (s1, none)
            match pruned.2 with
            | some e => (pruned.1, some e)
            | none => deleteEarlier pruned.1 (Entry.ofDelete d) es

/-- Modelled from the spec: `tasks::run` (`src/tasks.rs` is not under `src/`)
registers the resumable task and runs it to completion (spec §4.8); crash
recovery and lease renewal are not modelled, so it simply executes the
delete task body. -/
def tasksRun (s : State) (d : DeleteMsg) : State × Option DwnError :=
  runDelete s d

/-- Embedding of the `RecordsDelete` handler (`handle`, `delete.rs` lines
34-84): query the latest active entry, reject already-deleted and
already-pruned records with `NotFound`, authorize, reject deletes that
pre-date the latest version with `Conflict`, then run the delete task. -/
def handleDelete (oracle : DeleteMsg → WriteMsg → Bool) (owner : String)
    (s : State) (d : DeleteMsg) : State × Option DwnError :=
  let es := s.query { recordId := some d.recordId }
  match es with
  | [] => (s, some (DwnError.notFound "no matching record found"))
  | latest :: _ =>
    let earlyErr : Option DwnError :=
      match latest.message with
      | REntryType.delete ed =>
        if !d.prune then some (DwnError.notFound "cannot delete a RecordsDelete record")
        else if ed.prune then some (DwnError.notFound "attempting to prune an already pruned record")
        else none
      | REntryType.write _ => none
    match earlyErr with
    | some e => (s, some e)
    | none =>
      match latest.message with
      | REntryType.delete _ => (s, some (DwnError.unexpected "expected RecordsWrite message"))
      | REntryType.write w =>
        match authorizeDelete oracle owner d w with
        | some e => (s, some e)
        | none =>
          if d.ts < latest.ts then (s, some (DwnError.conflict "newer record version exists"))
          else tasksRun s d

/-! ## Reusable facts about the delete pipeline -/

theorem groupByRecordId_eq_nil (children : List Entry) : groupByRecordId children = [] := by
  unfold groupByRecordId
  induction children with
  | nil => rfl
  | cons e rest ih => exact ih

theorem deleteChildren_succ (fuel : Nat) (s : State) (rid : String) :
    deleteChildren (fuel + 1) s rid = (s, none) := by
  unfold deleteChildren
  simp [groupByRecordId_eq_nil]

theorem deleteData_not_conflict (s : State) (existing latest : Entry) (detail : String) :
    (deleteData s existing latest).2 ≠ some (DwnError.conflict detail) := by
  unfold deleteData
  rcases existing.message with w | d
  · rcases latest.message with w2 | d2
    · by_cases h : w.dataCid = w2.dataCid <;> simp [h]
    · simp
  · simp

theorem deleteEarlier_not_conflict (s : State) (latest : Entry) (existing : List Entry)
    (detail : String) :
    (deleteEarlier s latest existing).2 ≠ some (DwnError.conflict detail) := by
  unfold deleteEarlier
  suffices h : ∀ acc : State × Option DwnError, acc.2 ≠ some (DwnError.conflict detail) →
      (existing.foldl _ acc).2 ≠ some (DwnError.conflict detail) by
    exact h (s, none) (by simp)
  induction existing with
  | nil => exact fun acc hacc => hacc
  | cons a l ih =>
    intro acc hacc
    rw [List.foldl_cons]
    apply ih
    rcases hv : acc.2 with _ | v
    · simp only [hv]
      split
      · rcases hd : (deleteData acc.1 a latest).2 with _ | e
        · simp only [hd]
          rcases a.message with w | dd
          · by_cases hi : w.initial <;> simp [hi]
          · simp
        · have := deleteData_not_conflict acc.1 a latest detail
          simp only [hd] at this ⊢
          rcases hd2 : (deleteData acc.1 a latest) with ⟨s2, e2⟩
          simp only [hd2] at hd this ⊢
          simp [hd, this]
      · simp [hv]
    · simpa [hv] using hacc

theorem getLastD_mem_cons (a : Entry) (l : List Entry) : l.getLastD a ∈ a :: l := by
  induction l generalizing a with
  | nil => simp [List.getLastD]
  | cons b t ih =>
    rw [List.getLastD_cons]
    rcases List.mem_cons.mp (ih b) with h | h
    · rw [h]; simp
    · exact List.mem_cons_of_mem _ (List.mem_cons_of_mem _ h)

theorem runDelete_not_conflict (s : State) (d : DeleteMsg)
    (h : ∀ x ∈ s.query { recordId := some d.recordId, includeArchived := true }, x.ts ≤ d.ts)
    (detail : String) :
    (runDelete s d).2 ≠ some (DwnError.conflict detail) := by
  unfold runDelete
  rcases hq : s.query { recordId := some d.recordId, includeArchived := true } with _ | ⟨e0, rest⟩
  · simp
  · rw [hq] at h
    simp only []
    by_cases hlen : rest.length + 1 > 2
    · simp [hlen]
    · have hmem := getLastD_mem_cons e0 rest
      have hts : (rest.getLastD e0).ts ≤ d.ts := h _ hmem
      have hnc : ¬ d.ts < (rest.getLastD e0).ts := Nat.not_lt.mpr hts
      simp only [hlen, if_false, hnc]
      rcases e0.message with w | dd
      · by_cases hi : !w.initial
        · simp [hi]
        · simp only [hi, Bool.false_eq_true, if_false]
          rcases hp : d.prune
          · simp only [hp, Bool.false_eq_true, if_false]
            exact deleteEarlier_not_conflict _ _ _ detail
          · simp only [hp, if_true, deleteChildren_succ]
            exact deleteEarlier_not_conflict _ _ _ detail
      · simp

/-! ## Fixtures: a parent record with one child, and a soft-deleted record -/

/-- Initial write of parent record `P`. -/
def parentWrite : WriteMsg :=
  { cid := "cidP", recordId := "P", parentId := none, dataCid := "dataP",
    ts := 1, author := "alice", initial := true, protocol := none }

/-- Initial write of child record `C` with `parent_id = P`. -/
def childWrite : WriteMsg :=
  { cid := "cidC", recordId := "C", parentId := some "P", dataCid := "dataC",
    ts := 2, author := "alice", initial := true, protocol := none }

/-- Store holding the parent and child writes, their event-log entries and
their data blocks. -/
def pruneState : State :=
  { entries := [Entry.ofWrite parentWrite, Entry.ofWrite childWrite],
    eventLog := ["cidP", "cidC"],
    data := [("P", "dataP"), ("C", "dataC")] }

/-- An owner-authored `RecordsDelete` of `P` with `prune = true`. -/
def pruneDelete : DeleteMsg :=
  { cid := "cidD", recordId := "P", prune := true, ts := 3, author := "alice" }

/-- C1: handling Delete(P, prune = true) against a store where record `C` is
a child of `P` is accepted, yet the child's message entry, event-log entry
and data block all survive: the `record_id` grouping map in
`delete_children` is never extended (each absent key's push lands in a
dropped temporary), so the recursive purge never runs and no descendant is
removed, contradicting the documented prune semantics. -/
theorem prune_leaves_descendants_intact :
    (handleDelete (fun _ _ => false) "alice" pruneState pruneDelete).2 = none
    ∧ Entry.ofWrite childWrite
        ∈ (handleDelete (fun _ _ => false) "alice" pruneState pruneDelete).1.entries
    ∧ "cidC" ∈ (handleDelete (fun _ _ => false) "alice" pruneState pruneDelete).1.eventLog
    ∧ ("C", "dataC") ∈ (handleDelete (fun _ _ => false) "alice" pruneState pruneDelete).1.data := by
  decide

/-- Archived form of the parent's initial write, as re-put by
`delete_earlier` when the delete superseded it. -/
def archivedParentEntry : Entry :=
  { message := REntryType.write parentWrite,
    indexes := setIndex (Entry.ofWrite parentWrite).indexes "initial" "true" }

/-- The stored `RecordsDelete` that soft-deleted record `P` (prune = false). -/
def storedDelete : DeleteMsg :=
  { cid := "cidD0", recordId := "P", prune := false, ts := 5, author := "alice" }

/-- Entry persisted for `storedDelete` (initial write indexes overlaid). -/
def storedDeleteEntry : Entry :=
  { message := REntryType.delete storedDelete,
    indexes := overlayIndexes storedDelete.buildIndexes parentWrite.buildIndexes }

/-- Store for record `P` after a soft delete: the archived initial write plus
the latest delete entry. -/
def deletedState : State :=
  { entries := [archivedParentEntry, storedDeleteEntry],
    eventLog := ["cidP", "cidD0"],
    data := [] }

/-- A second delete of `P` with `prune = false` whose timestamp (3) strictly
predates the stored delete's timestamp (5). -/
def earlyDelete : DeleteMsg :=
  { cid := "cidD1", recordId := "P", prune := false, ts := 3, author := "alice" }

/-- C3 counterexample: a `RecordsDelete` whose timestamp strictly predates
the latest stored entry for its record is answered with `NotFound` — not
`Conflict` — when that latest entry is already a delete, because the
already-deleted check runs before the timestamp check. -/
theorem early_delete_notFound_not_conflict :
    earlyDelete.ts < storedDelete.ts
    ∧ deletedState.query { recordId := some earlyDelete.recordId } = [storedDeleteEntry]
    ∧ handleDelete (fun _ _ => false) "alice" deletedState earlyDelete
        = (deletedState, some (DwnError.notFound "cannot delete a RecordsDelete record"))
    ∧ ∀ detail, (handleDelete (fun _ _ => false) "alice" deletedState earlyDelete).2
        ≠ some (DwnError.conflict detail) := by
  have hres : handleDelete (fun _ _ => false) "alice" deletedState earlyDelete
      = (deletedState, some (DwnError.notFound "cannot delete a RecordsDelete record")) := by
    decide
  refine ⟨by decide, by decide, hres, ?_⟩
  intro detail h
  rw [hres] at h
  exact DwnError.noConfusion (Option.some.inj h)

/-- C3 (amended): when the latest active entry for the record is a
`RecordsWrite` and the delete is authorized, a delete whose timestamp is
strictly earlier than that entry's returns `Conflict` with the store
unchanged, and a delete whose timestamp is at least every stored version's
is never rejected with `Conflict`. -/
theorem delete_timestamp_ordering (oracle : DeleteMsg → WriteMsg → Bool) (owner : String)
    (s : State) (d : DeleteMsg) (e : Entry) (rest : List Entry) (w : WriteMsg)
    (hq : s.query { recordId := some d.recordId } = e :: rest)
    (hm : e.message = REntryType.write w)
    (hauth : authorizeDelete oracle owner d w = none)
    (harch : ∀ x ∈ s.query { recordId := some d.recordId, includeArchived := true },
        x.ts ≤ d.ts ∨ d.ts < e.ts) :
    (d.ts < e.ts → handleDelete oracle owner s d
        = (s, some (DwnError.conflict "newer record version exists")))
    ∧ (e.ts ≤ d.ts → ∀ detail,
        (handleDelete oracle owner s d).2 ≠ some (DwnError.conflict detail)) := by
  have hbase : handleDelete oracle owner s d
      = (if d.ts < e.ts then (s, some (DwnError.conflict "newer record version exists"))
         else tasksRun s d) := by
    unfold handleDelete
    rw [hq]
    simp only [hm, hauth]
  constructor
  · intro hlt
    rw [hbase, if_pos hlt]
  · intro hge detail
    rw [hbase, if_neg (Nat.not_lt.mpr (by
      calc e.ts ≤ d.ts := hge))]
    unfold tasksRun
    apply runDelete_not_conflict
    intro x hx
    rcases harch x hx with hle | hlt
    · exact hle
    · exact absurd hge (Nat.not_le.mpr hlt)

/-- Store holding only the active initial write of record `P`. -/
def freshState : State :=
  { entries := [Entry.ofWrite parentWrite],
    eventLog := ["cidP"],
    data := [("P", "dataP")] }

/-- An owner-authored delete of `P` that predates the stored write
(timestamp 0 against the write's 1). -/
def staleDelete : DeleteMsg :=
  { cid := "cidD2", recordId := "P", prune := false, ts := 0, author := "alice" }

/-- Witness for the amended C3 theorem at a concrete store and delete. -/
theorem delete_timestamp_ordering_witness :
    (staleDelete.ts < (Entry.ofWrite parentWrite).ts →
      handleDelete (fun _ _ => false) "alice" freshState staleDelete
        = (freshState, some (DwnError.conflict "newer record version exists")))
    ∧ ((Entry.ofWrite parentWrite).ts ≤ staleDelete.ts → ∀ detail,
        (handleDelete (fun _ _ => false) "alice" freshState staleDelete).2
          ≠ some (DwnError.conflict detail)) :=
  delete_timestamp_ordering (fun _ _ => false) "alice" freshState staleDelete
    (Entry.ofWrite parentWrite) [] parentWrite (by decide) (by decide) (by decide)
    (by decide)

/-- C4: when the latest stored entry for the target record is already a
`RecordsDelete`, an incoming delete with `prune = false` is rejected with
`NotFound`, and when the stored delete is already pruned the handler returns
`NotFound` whatever the incoming prune flag. -/
theorem delete_of_deleted_notFound (oracle : DeleteMsg → WriteMsg → Bool) (owner : String)
    (s : State) (d : DeleteMsg) (ed : DeleteMsg) (e : Entry) (rest : List Entry)
    (hq : s.query { recordId := some d.recordId } = e :: rest)
    (hm : e.message = REntryType.delete ed) :
    (d.prune = false → handleDelete oracle owner s d
        = (s, some (DwnError.notFound "cannot delete a RecordsDelete record")))
    ∧ (ed.prune = true → ∃ detail, handleDelete oracle owner s d
        = (s, some (DwnError.notFound detail))) := by
  have hbase : handleDelete oracle owner s d
      = (if !d.prune then (s, some (DwnError.notFound "cannot delete a RecordsDelete record"))
         else if ed.prune then
           (s, some (DwnError.notFound "attempting to prune an already pruned record"))
         else (s, some (DwnError.unexpected "expected RecordsWrite message"))) := by
    unfold handleDelete
    rw [hq]
    simp only [hm]
    rcases d.prune <;> rcases hep : ed.prune <;> simp [hep]
  constructor
  · intro hp
    rw [hbase]
    simp [hp]
  · intro hep
    rw [hbase]
    rcases hp : d.prune
    · exact ⟨"cannot delete a RecordsDelete record", by simp [hp]⟩
    · exact ⟨"attempting to prune an already pruned record", by simp [hp, hep]⟩

/-- An already-pruned stored delete of record `P`. -/
def prunedStoredDelete : DeleteMsg :=
  { cid := "cidD3", recordId := "P", prune := true, ts := 5, author := "alice" }

/-- Entry persisted for `prunedStoredDelete`. -/
def prunedStoredDeleteEntry : Entry :=
  { message := REntryType.delete prunedStoredDelete,
    indexes := overlayIndexes prunedStoredDelete.buildIndexes parentWrite.buildIndexes }

/-- Store for record `P` whose latest entry is an already-pruned delete. -/
def prunedState : State :=
  { entries := [archivedParentEntry, prunedStoredDeleteEntry],
    eventLog := ["cidP", "cidD3"],
    data := [] }

/-- A follow-up delete of `P` with `prune = false`. -/
def followupDelete : DeleteMsg :=
  { cid := "cidD4", recordId := "P", prune := false, ts := 6, author := "alice" }

/-- Witness for the C4 theorem at a concrete soft-deleted store. -/
theorem delete_of_deleted_notFound_witness :
    (followupDelete.prune = false → handleDelete (fun _ _ => false) "alice" prunedState followupDelete
        = (prunedState, some (DwnError.notFound "cannot delete a RecordsDelete record")))
    ∧ (prunedStoredDelete.prune = true → ∃ detail,
        handleDelete (fun _ _ => false) "alice" prunedState followupDelete
          = (prunedState, some (DwnError.notFound detail))) :=
  delete_of_deleted_notFound (fun _ _ => false) "alice" prunedState followupDelete
    prunedStoredDelete prunedStoredDeleteEntry [] (by decide) (by decide)

/-! ## Protocols configure: overwrite handling (`src/protocols/configure.rs`) -/

/-- A `ProtocolsConfigure` message restricted to the fields its handler
reads: content address, descriptor timestamp, the definition's protocol URI,
and the author resolved from the authorization.  The definition body is
never inspected by the overwrite logic. -/
structure ConfigureMsg where
  cid : String
  ts : Nat
  protocol : String
  author : String
deriving DecidableEq, Repr

/-- Durable state touched by the configure handler: stored configure entries
and the event log. -/
structure ConfigState where
  configs : List ConfigureMsg
  eventLog : List String
deriving DecidableEq, Repr

/-- `MessageStore::put` for configure entries (last-writer-wins on CID). -/
def ConfigState.putConfig (s : ConfigState) (c : ConfigureMsg) : ConfigState :=
  { s with configs := s.configs.filter (fun x => x.cid ≠ c.cid) ++ [c] }

/-- `MessageStore::delete` plus `EventLog::delete` for one message CID. -/
def ConfigState.deleteConfig (s : ConfigState) (c : String) : ConfigState :=
  { configs := s.configs.filter (fun x => x.cid ≠ c),
    eventLog := s.eventLog.filter (fun x => x ≠ c) }

/-- `EventLog::append`. -/
def ConfigState.logAppendC (s : ConfigState) (c : String) : ConfigState :=
  { s with eventLog := s.eventLog ++ [c] }

/-- Modelled from the spec: `query::fetch_config` (`src/protocols/query.rs`
is not under `src/`) returns the stored configure messages whose definition
matches the protocol filter, or `None` when there are none. -/
def fetchConfig (s : ConfigState) (protocol : String) : Option (List ConfigureMsg) :=
  let l := s.configs.filter (fun c => c.protocol = protocol)
  if l.isEmpty then none else some l

/-- Authorization of a configure (`Configure::authorize`, `configure.rs`
lines 160-192): the owner is always permitted; the non-owner grant path
(grant fetch, scope check) is abstracted as `grantOk` since the claims
exercise owner-authored messages.  The delegated-grant path is not modelled:
embedded messages carry no delegated grant. -/
def configureAuthorize (grantOk : ConfigureMsg → Option DwnError) (owner : String)
    (c : ConfigureMsg) : Option DwnError :=
  if c.author = owner then none else grantOk c

/-- Embedding of the `ProtocolsConfigure` handler (`handle`, `configure.rs`
lines 31-86).  The `is_latest`/`latest` pair is computed by the exact fold
written in the source, whose closure discards its accumulator — only the
last element of `existing` decides the outcome — and which compares
timestamps with `>` only, with no CID tie-break.  Entries strictly older
than the chosen latest are deleted, a non-latest incoming message is
rejected with `Unexpected`, and otherwise the incoming message is stored and
appended to the event log. -/
def handleConfigure (grantOk : ConfigureMsg → Option DwnError) (owner : String)
    (s : ConfigState) (c : ConfigureMsg) : ConfigState × Option DwnError :=
  match configureAuthorize grantOk owner c with
  | some e => (s, some e)
  | none =>
    match fetchConfig s c.protocol with
    | none => (((s.putConfig c).logAppendC c.cid), none)
    | some existing =>
      let folded := existing.foldl
        (fun _ e => if e.ts > c.ts then (false, e) else (true, c)) (true, c)
      let latestTs := folded.2.ts
      let s1 := existing.foldl
        (fun st e => if e.ts < latestTs then st.deleteConfig e.cid else st) s
      if !folded.1 then (s1, some (DwnError.unexpected "message is not the latest"))
      else (((s1.putConfig c).logAppendC c.cid), none)

/-- The stored configuration for protocol `http://tie.xyz`, timestamp 5,
message CID `"b"`. -/
def tieExisting : ConfigureMsg :=
  { cid := "b", ts := 5, protocol := "http://tie.xyz", author := "alice" }

/-- Store holding `tieExisting` and its event-log entry. -/
def tieState : ConfigState :=
  { configs := [tieExisting], eventLog := ["b"] }

/-- An incoming configuration for the same protocol with the same timestamp
5 and the smaller message CID `"a"`. -/
def tieIncoming : ConfigureMsg :=
  { cid := "a", ts := 5, protocol := "http://tie.xyz", author := "alice" }

/-- C2: submitting a configuration with a timestamp equal to the stored
configuration's and a smaller message CID is accepted, and both
configurations remain in the store and the event log: the handler has no CID
tie-break and deletes only strictly older entries, contradicting the
latest-wins-with-CID-tie-break rule asserted by the spec and by the
repository test `overwrite_smaller` (which expects a `Conflict` rejection
and a single surviving entry). -/
theorem configure_tie_retains_both :
    strLt tieIncoming.cid tieExisting.cid = true
    ∧ tieIncoming.ts = tieExisting.ts
    ∧ (handleConfigure (fun _ => some (DwnError.forbidden "missing permission grant ID"))
        "alice" tieState tieIncoming).2 = none
    ∧ (handleConfigure (fun _ => some (DwnError.forbidden "missing permission grant ID"))
        "alice" tieState tieIncoming).1.configs = [tieExisting, tieIncoming]
    ∧ (handleConfigure (fun _ => some (DwnError.forbidden "missing permission grant ID"))
        "alice" tieState tieIncoming).1.eventLog = ["b", "a"] := by
  decide

/-! ## Protocols configure: rule-set validation (`src/protocols/configure.rs`) -/

/-- Actor of an `ActionRule` (`Actor` in `configure.rs`). -/
inductive PActor where
  | anyone
  | author
  | recipient
deriving DecidableEq, Repr

/-- Action of an `ActionRule` (`Action` in `configure.rs`). -/
inductive PAction where
  | create
  | delete
  | prune
  | query
  | subscribe
  | read
  | update
  | coDelete
  | coPrune
  | coUpdate
deriving DecidableEq, Repr

/-- An action rule (`ActionRule` in `configure.rs`). -/
structure ActionRule where
  who : Option PActor := none
  role : Option String := none
  odf : Option String := none
  can : List PAction := []
deriving DecidableEq, Repr

/-- Protocol type declaration (`ProtocolType` in `configure.rs`). -/
structure ProtocolType where
  schema : Option String := none
  dataFormats : Option (List String) := none
deriving DecidableEq, Repr

/-- Modelled from the spec: the `$size` range `{min?, max?}` of a rule set
(the shared `Range` type lives in the crate root, which is not under
`src/`); `optGt` mirrors the `size.min > size.max` comparison under Rust's
derived `Option` ordering, where `None` is smaller than any `Some`. -/
structure SizeRange where
  min : Option Nat := none
  max : Option Nat := none
deriving DecidableEq, Repr

/-- Rust `Option<usize>` strict greater-than. -/
def optGt : Option Nat → Option Nat → Bool
  | some a, some b => a > b
  | some _, none => true
  | none, _ => false

/-- The `$tags` block of a rule set, keeping the keys of the flattened
undefined-tags map (the only part `verify_rule_set` reads). -/
structure PTags where
  requiredTags : Option (List String) := none
  allowUndefinedTags : Option Bool := none
  undefinedTags : List String := []
deriving DecidableEq, Repr

/-- A protocol rule set (`RuleSet` in `configure.rs`); `children` is the
flattened `structure` map of nested rule sets in key order. -/
inductive RuleSet where
  | mk (actions : Option (List ActionRule)) (role : Option Bool) (size : Option SizeRange)
      (tags : Option PTags) (children : List (String × RuleSet))

/-- Action rules of a rule set. -/
def RuleSet.actions : RuleSet → Option (List ActionRule)
  | RuleSet.mk a _ _ _ _ => a

/-- Role marker of a rule set. -/
def RuleSet.role : RuleSet → Option Bool
  | RuleSet.mk _ r _ _ _ => r

/-- Size range of a rule set. -/
def RuleSet.size : RuleSet → Option SizeRange
  | RuleSet.mk _ _ s _ _ => s

/-- Tags block of a rule set. -/
def RuleSet.tags : RuleSet → Option PTags
  | RuleSet.mk _ _ _ t _ => t

/-- Nested rule sets of a rule set. -/
def RuleSet.children : RuleSet → List (String × RuleSet)
  | RuleSet.mk _ _ _ _ c => c

/-- A protocol definition (`Definition` in `configure.rs`). -/
structure PDefinition where
  protocol : String
  published : Bool
  types : List (String × ProtocolType)
  «structure» : List (String × RuleSet)

/-- Embedding of `role_paths` (`configure.rs` lines 661-683), exactly as
written: the depth guard rejects paths of more than 10 segments; for each
nested rule set the loop pushes a role path into a clone of `roles` that is
dropped at the end of the iteration, and discards the value of the recursive
call, so the function can only propagate errors and always returns the
`roles` argument it was given.  Fuel bounds the nesting recursion. -/
def rolePaths : Nat → String → RuleSet → List String → Except DwnError (List String)
  | 0, _, _, _ => Except.error (DwnError.unexpected "recursion limit reached")
  | fuel + 1, protocolPath, rs, roles =>
    if protocolPath.data.countP (fun c => c == '/') + 1 > 10 then
      Except.error (DwnError.unexpected "Entry nesting depth exceeded 10 levels.")
    else
      let stepped := rs.children.foldl
        (fun (acc : Except DwnError Unit) kv =>
          match acc with
          | Except.error e => Except.error e
          | Except.ok () =>
            let path2 := if protocolPath = "" then kv.1 else protocolPath ++ "/" ++ kv.1
            if kv.2.role.isSome then Except.ok ()
            else
              match rolePaths fuel path2 kv.2 roles with
              | Except.error e => Except.error e
              | Except.ok _ => Except.ok ())
        (Except.ok ())
      match stepped with
      | Except.error e => Except.error e
      | Except.ok () => Except.ok roles

/-- The `while let Some(action) = action_iter.next()` loop of
`verify_rule_set` (`configure.rs` lines 567-642): per action rule, validate
the role reference and its read-like actions, the actor/`of` constraints —
including the recipient-without-`of` check, which only requires `can` to
contain at least one of co-update/co-delete/co-prune — the
update/delete-imply-create rules, and forward duplicate detection against
the remaining rules. -/
def checkActions (roles : List String) (protocolPath : String) :
    List ActionRule → Option DwnError
  | [] => none
  | action :: rest =>
    let roleErr : Option DwnError :=
      match action.role with
      | some r =>
        if ¬ roles.contains r then
          some (DwnError.unexpected ("missing role " ++ r ++ " in action for " ++ protocolPath))
        else if ¬ ([PAction.read, PAction.query, PAction.subscribe].all
            (fun ra => action.can.contains ra)) then
          some (DwnError.unexpected
            ("role " ++ r ++ " missing read-like action(s) for " ++ protocolPath))
        else none
      | none => none
    match roleErr with
    | some e => some e
    | none =>
      if action.who = some PActor.anyone ∧ action.odf.isSome then
        some (DwnError.unexpected
          ("of must not be set when who is anyone for " ++ protocolPath))
      else if (action.who = some PActor.recipient ∧ action.odf = none)
          ∧ ¬ ([PAction.coUpdate, PAction.coDelete, PAction.coPrune].any
              (fun ra => action.can.contains ra)) then
        some (DwnError.unexpected
          "recipient action must contain only co-update, co-delete, and co-prune")
      else if action.who = some PActor.author ∧ action.odf = none then
        some (DwnError.unexpected "of must be set when who is set to author")
      else if action.can.contains PAction.update ∧ ¬ action.can.contains PAction.create then
        some (DwnError.unexpected "action rule contains update but no create")
      else if action.can.contains PAction.delete ∧ ¬ action.can.contains PAction.create then
        some (DwnError.unexpected "action rule contains delete but no create")
      else if (if action.who.isSome then
            rest.any (fun other => other.who == action.who && other.odf == action.odf)
          else rest.any (fun other => other.role == action.role)) then
        some (DwnError.unexpected "more than one action rule per actor or role within a rule set")
      else checkActions roles protocolPath rest

/-- Embedding of `verify_rule_set` (`configure.rs` lines 544-658): validate
`$size`, the `$tags` schemas (the external `jsonschema` validator is the
`schemaOk` parameter), the action rules, and then each nested rule set,
requiring its name to be a declared type.  Fuel bounds the nesting
recursion. -/
def verifyRuleSet : Nat → (String → Bool) → RuleSet → String → List (String × ProtocolType) →
    List String → Option DwnError
  | 0, _, _, _, _, _ => some (DwnError.unexpected "recursion limit reached")
  | fuel + 1, schemaOk, rs, protocolPath, types, roles =>
    let sizeErr : Option DwnError :=
      match rs.size with
      | some sz =>
        if optGt sz.min sz.max then
          some (DwnError.unexpected ("invalid size range at " ++ protocolPath))
        else none
      | none => none
    match sizeErr with
    | some e => some e
    | none =>
      let tagErr : Option DwnError :=
        match rs.tags with
        | some tags =>
          if tags.undefinedTags.all schemaOk then none
          else some (DwnError.unexpected "tag schema validation error")
        | none => none
      match tagErr with
      | some e => some e
      | none =>
        match checkActions roles protocolPath (rs.actions.getD []) with
        | some e => some e
        | none =>
          rs.children.foldl
            (fun acc kv =>
              match acc with
              | some e => some e
              | none =>
                if ¬ (types.map Prod.fst).contains kv.1 then
                  some (DwnError.unexpected
                    ("rule set " ++ kv.1 ++ " is not declared as an allowed type"))
                else
                  let path2 := if protocolPath = "" then kv.1 else protocolPath ++ "/" ++ kv.1
                  verifyRuleSet fuel schemaOk kv.2 path2 types roles)
            none

/-- Embedding of `verify_structure` (`configure.rs` lines 531-541): for each
top-level rule set, compute the role paths (always the empty list, see
`rolePaths`) and validate the rule set against the declared type names.  The
source recursion is structural on the finite rule-set tree; the embedding
bounds it with `fuel`, and any fuel exceeding the tree's nesting depth
reproduces the source behavior. -/
def verifyStructure (fuel : Nat) (schemaOk : String → Bool) (d : PDefinition) :
    Option DwnError :=
  d.«structure».foldl
    (fun acc kv =>
      match acc with
      | some e => some e
      | none =>
        match rolePaths fuel "" kv.2 [] with
        | Except.error e => some e
        | Except.ok roles => verifyRuleSet fuel schemaOk kv.2 "" d.types roles)
    none

/-- An action rule granting the record recipient `co-update` together with
the non-co action `read`, with no `of` path. -/
def mixedRecipientRule : ActionRule :=
  { who := some PActor.recipient, role := none, odf := none,
    can := [PAction.coUpdate, PAction.read] }

/-- A rule set whose only action rule is `mixedRecipientRule`. -/
def mixedRuleSet : RuleSet :=
  RuleSet.mk (some [mixedRecipientRule]) none none none []

/-- A definition with one declared type `foo` carrying `mixedRuleSet`. -/
def mixedDefinition : PDefinition :=
  { protocol := "http://foo.xyz", published := false,
    types := [("foo", {})], «structure» := [("foo", mixedRuleSet)] }

/-- C5: a recipient rule with no `of` whose `can` list contains `read` —
an action outside co-update/co-delete/co-prune — passes `verify_structure`:
the check `allowed.iter().any(|ra| action.can.contains(ra))` only requires
the `can` list to intersect the co-action set, although the comment above it
and its own error message demand that `can` contain nothing else, so the
claimed subset validation is not what the code enforces. -/
theorem recipient_rule_with_extra_action_accepted :
    verifyStructure 12 (fun _ => false) mixedDefinition = none
    ∧ PAction.read ∈ mixedRecipientRule.can
    ∧ ¬ PAction.read ∈ [PAction.coUpdate, PAction.coDelete, PAction.coPrune] := by
  decide

/-! ## Records filter planner (`src/records.rs`, `RecordsFilter::to_concise`)

Dates are carried as their RFC3339 microsecond rendering (strings), so the
source's `to_rfc3339_opts(Micros, true)` becomes the identity; JSON tag
values are likewise carried as their rendered string. -/

/-- One or many values (`OneOrMany` in the crate root). -/
inductive OneOrMany where
  | one (s : String)
  | many (l : List String)
deriving DecidableEq, Repr

/-- Lower bound of a numeric range (`Lower` in the crate root). -/
inductive LowerB where
  | inclusive (n : Nat)
  | exclusive (n : Nat)
deriving DecidableEq, Repr

/-- Upper bound of a numeric range (`Upper` in the crate root). -/
inductive UpperB where
  | inclusive (n : Nat)
  | exclusive (n : Nat)
deriving DecidableEq, Repr

/-- Numeric range with optional bounds (`Range<usize>`). -/
structure NatRange where
  lower : Option LowerB := none
  upper : Option UpperB := none
deriving DecidableEq, Repr

/-- Lower bound of a string range. -/
inductive LowerS where
  | inclusive (s : String)
  | exclusive (s : String)
deriving DecidableEq, Repr

/-- Upper bound of a string range. -/
inductive UpperS where
  | inclusive (s : String)
  | exclusive (s : String)
deriving DecidableEq, Repr

/-- String range with optional bounds (`Range<String>`). -/
structure StrRange where
  lower : Option LowerS := none
  upper : Option UpperS := none
deriving DecidableEq, Repr

/-- Date range with optional bounds (`DateRange`), dates rendered RFC3339. -/
structure DateRange where
  lower : Option String := none
  upper : Option String := none
deriving DecidableEq, Repr

/-- A tag filter (`TagFilter` in `records.rs`). -/
inductive TagFilter where
  | startsWith (s : String)
  | range (r : NatRange)
  | equal (v : String)
deriving DecidableEq, Repr

/-- The full records filter (`RecordsFilter` in `records.rs`); `tags` keeps
the `BTreeMap` entries in key order. -/
structure RecordsFilter where
  recordId : Option String := none
  author : Option OneOrMany := none
  attester : Option String := none
  recipient : Option OneOrMany := none
  contextId : Option String := none
  parentId : Option String := none
  protocol : Option String := none
  protocolPath : Option String := none
  schema : Option String := none
  dataFormat : Option String := none
  tags : Option (List (String × TagFilter)) := none
  dataCid : Option String := none
  dataSize : Option NatRange := none
  published : Option Bool := none
  datePublished : Option DateRange := none
  dateCreated : Option DateRange := none
  dateUpdated : Option DateRange := none
deriving DecidableEq, Repr

/-- Value of the single driving filter (`FilterVal` in `records.rs`). -/
inductive FilterVal where
  | equal (s : String)
  | oneOf (l : List String)
  | range (r : StrRange)
deriving DecidableEq, Repr

/-- Left-pad a number with zeros to width 10 (`format! val:0>10`). -/
def pad10 (n : Nat) : String :=
  let s := toString n
  String.mk (List.replicate (10 - s.length) '0') ++ s

/-- Zero-pad the bounds of a numeric range (`data_size`/tag-range handling of
`to_concise`). -/
def padRange (r : NatRange) : StrRange :=
  { lower := r.lower.map (fun l =>
      match l with
      | LowerB.inclusive v => LowerS.inclusive (pad10 v)
      | LowerB.exclusive v => LowerS.exclusive (pad10 v)),
    upper := r.upper.map (fun u =>
      match u with
      | UpperB.inclusive v => UpperS.inclusive (pad10 v)
      | UpperB.exclusive v => UpperS.exclusive (pad10 v)) }

/-- Render a date range with inclusive bounds (the date-range handling of
`to_concise`; dates are already their RFC3339 rendering). -/
def dateRange (dr : DateRange) : StrRange :=
  { lower := dr.lower.map LowerS.inclusive, upper := dr.upper.map UpperS.inclusive }

/-- Embedding of `RecordsFilter::to_concise` (`records.rs` lines 134-259):
choose the single driving index, first match wins, in the order written in
the source. -/
def RecordsFilter.toConcise (f : RecordsFilter) : Option (String × FilterVal) :=
  match f.recordId with
  | some recordId => some ("record_id", FilterVal.equal recordId)
  | none =>
  match f.attester with
  | some attester => some ("attester", FilterVal.equal attester)
  | none =>
  match f.parentId with
  | some parentId => some ("parent_id", FilterVal.equal parentId)
  | none =>
  match f.recipient with
  | some recipient =>
    some ("recipient", FilterVal.oneOf
      (match recipient with
       | OneOrMany.one r => [r]
       | OneOrMany.many rs => rs))
  | none =>
  match f.contextId with
  | some contextId => some ("context_id", FilterVal.equal contextId)
  | none =>
  match f.protocolPath with
  | some protocolPath => some ("protocol_path", FilterVal.equal protocolPath)
  | none =>
  match f.schema with
  | some schema => some ("schema", FilterVal.equal schema)
  | none =>
  match f.protocol with
  | some protocol => some ("protocol", FilterVal.equal protocol)
  | none =>
  match f.dataCid with
  | some dataCid => some ("data_cid", FilterVal.equal dataCid)
  | none =>
  match f.dataSize with
  | some dataSize => some ("data_size", FilterVal.range (padRange dataSize))
  | none =>
  match f.datePublished with
  | some datePublished => some ("date_published", FilterVal.range (dateRange datePublished))
  | none =>
  match f.dateCreated with
  | some dateCreated => some ("date_created", FilterVal.range (dateRange dateCreated))
  | none =>
  match f.dateUpdated with
  | some dateUpdated => some ("date_updated", FilterVal.range (dateRange dateUpdated))
  | none =>
  match f.dataFormat with
  | some dataFormat => some ("data_format", FilterVal.equal dataFormat)
  | none =>
  match f.published with
  | some published => some ("published", FilterVal.equal (toString published))
  | none =>
  match f.author with
  | some author =>
    some ("author", FilterVal.oneOf
      (match author with
       | OneOrMany.one a => [a]
       | OneOrMany.many as2 => as2))
  | none =>
  match f.tags with
  | some ((key, filter) :: _) =>
    (match filter with
     | TagFilter.equal v => some ("tag." ++ key, FilterVal.equal v)
     | TagFilter.range r => some ("tag." ++ key, FilterVal.range (padRange r))
     | TagFilter.startsWith v => some ("tag." ++ key, FilterVal.equal v))
  | _ => none

/-- The driving index stated by the spec: the first present field in the
priority order record_id, attester, parent_id, recipient, context_id,
protocol_path, schema, protocol, data_cid, data_size, date_published,
date_created, date_updated, data_format, published, author, then a tag
field; none when no field is present. -/
def drivingField (f : RecordsFilter) : Option String :=
  if f.recordId.isSome then some "record_id"
  else if f.attester.isSome then some "attester"
  else if f.parentId.isSome then some "parent_id"
  else if f.recipient.isSome then some "recipient"
  else if f.contextId.isSome then some "context_id"
  else if f.protocolPath.isSome then some "protocol_path"
  else if f.schema.isSome then some "schema"
  else if f.protocol.isSome then some "protocol"
  else if f.dataCid.isSome then some "data_cid"
  else if f.dataSize.isSome then some "data_size"
  else if f.datePublished.isSome then some "date_published"
  else if f.dateCreated.isSome then some "date_created"
  else if f.dateUpdated.isSome then some "date_updated"
  else if f.dataFormat.isSome then some "data_format"
  else if f.published.isSome then some "published"
  else if f.author.isSome then some "author"
  else
    match f.tags with
    | some ((key, _) :: _) => some ("tag." ++ key)
    | _ => none

/-- C6: the driving index chosen by `to_concise` is exactly the first
present filter field in the spec's priority order, and no index is chosen
when no field is present (a `tags` map with no entries counts as absent). -/
theorem toConcise_follows_priority (f : RecordsFilter) :
    (f.toConcise).map Prod.fst = drivingField f := by
  rcases f with ⟨rid, author, attester, recipient, contextId, parentId, protocol, protocolPath,
    schema, dataFormat, tags, dataCid, dataSize, published, datePublished, dateCreated,
    dateUpdated⟩
  rcases rid with _ | v
  case some => rfl
  rcases attester with _ | v
  case some => rfl
  rcases parentId with _ | v
  case some => rfl
  rcases recipient with _ | v
  case some => cases v <;> rfl
  rcases contextId with _ | v
  case some => rfl
  rcases protocolPath with _ | v
  case some => rfl
  rcases schema with _ | v
  case some => rfl
  rcases protocol with _ | v
  case some => rfl
  rcases dataCid with _ | v
  case some => rfl
  rcases dataSize with _ | v
  case some => rfl
  rcases datePublished with _ | v
  case some => rfl
  rcases dateCreated with _ | v
  case some => rfl
  rcases dateUpdated with _ | v
  case some => rfl
  rcases dataFormat with _ | v
  case some => rfl
  rcases published with _ | v
  case some => rfl
  rcases author with _ | v
  case some => cases v <;> rfl
  rcases tags with _ | ts
  case some =>
    rcases ts with _ | ⟨⟨k, tf⟩, rest⟩
    · rfl
    · cases tf <;> rfl
  rfl

/-! ## Records query rewriting (`src/records/query.rs`, `Query::into_non_owner`) -/

/-- Date sort variants (`Sort` in `records.rs`). -/
inductive DateSort where
  | createdAsc
  | createdDesc
  | publishedAsc
  | publishedDesc
  | timestampAsc
  | timestampDesc
deriving DecidableEq, Repr

/-- Modelled from the spec: pagination settings (`Pagination` lives in the
missing `src/store.rs`); the rewriter only passes them through. -/
structure Pagination where
  limit : Option Nat := none
  cursorCid : Option String := none
deriving DecidableEq, Repr

/-- Modelled from the spec: the authorization fields the query rewriter
reads (`src/authorization.rs` is not under `src/`): the resolved author and
the signature payload's `protocol_role`. -/
structure QueryAuthzn where
  author : String
  protocolRole : Option String := none
deriving DecidableEq, Repr

/-- A `RecordsQuery` message restricted to the fields `into_non_owner`
reads. -/
structure RecordsQueryMsg where
  filter : RecordsFilter
  dateSort : Option DateSort := none
  pagination : Option Pagination := none
  authorization : Option QueryAuthzn := none
deriving DecidableEq, Repr

/-- Modelled from the spec: the store query built by `RecordsQueryBuilder`
(`src/store.rs` is not under `src/`): `add_filter` appends to `filters`,
`sort` and `pagination` set the respective fields. -/
structure StoreQuery where
  sort : Option DateSort := none
  pagination : Option Pagination := none
  filters : List RecordsFilter := []
deriving DecidableEq, Repr

/-- Builder method `RecordsFilter::add_author` (`records.rs` lines 330-344). -/
def RecordsFilter.addAuthor (f : RecordsFilter) (a : String) : RecordsFilter :=
  match f.author with
  | some (OneOrMany.many existing) => { f with author := some (OneOrMany.many (existing ++ [a])) }
  | some (OneOrMany.one existing) => { f with author := some (OneOrMany.many [existing, a]) }
  | none => { f with author := some (OneOrMany.one a) }

/-- Builder method `RecordsFilter::add_recipient` (`records.rs` lines
355-369). -/
def RecordsFilter.addRecipient (f : RecordsFilter) (a : String) : RecordsFilter :=
  match f.recipient with
  | some (OneOrMany.many existing) =>
    { f with recipient := some (OneOrMany.many (existing ++ [a])) }
  | some (OneOrMany.one existing) =>
    { f with recipient := some (OneOrMany.many [existing, a]) }
  | none => { f with recipient := some (OneOrMany.one a) }

/-- Builder method `RecordsFilter::published` (`records.rs` lines 392-396). -/
def RecordsFilter.withPublished (f : RecordsFilter) (b : Bool) : RecordsFilter :=
  { f with published := some b }

/-- Embedding of `Query::into_non_owner` (`query.rs` lines 245-284): carry
over sort and pagination; when the request filter's `published` is unset,
add a copy with `published = true`; add a copy with the author replaced by
the requester and `published = false`; add a copy with the recipient
replaced by the requester and `published = false`; and when a protocol role
is invoked, add a copy with `published = false` and the original
author/recipient clauses. -/
def intoNonOwner (q : RecordsQueryMsg) : Except DwnError StoreQuery :=
  match q.authorization with
  | none => Except.error (DwnError.forbidden "missing authorization")
  | some authzn =>
    let author := authzn.author
    let fs1 : List RecordsFilter :=
      if q.filter.published = none then [q.filter.withPublished true] else []
    let f2 := (({ q.filter with author := none }).addAuthor author).withPublished false
    let f3 := (({ q.filter with recipient := none }).addRecipient author).withPublished false
    let fs4 : List RecordsFilter :=
      if authzn.protocolRole.isSome then
        [({ q.filter with published := some false }).withPublished false]
      else []
    Except.ok
      { sort := q.dateSort, pagination := q.pagination,
        filters := fs1 ++ [f2, f3] ++ fs4 }

/-- A non-owner records query that explicitly requests unpublished records
(`published = false`) with no protocol role. -/
def unpubQuery : RecordsQueryMsg :=
  { filter := { published := some false, protocol := some "http://chat.xyz" },
    authorization := some { author := "bob" } }

/-- C7 counterexample: for a non-owner query that explicitly sets
`published = false` (which is not a published-only query), the rewritten
store query contains only two sub-filters — author = requester and
recipient = requester, both with `published = false` — and no
`published = true` clause, so it is not the claimed three-filter union. -/
theorem nonowner_rewrite_two_filters :
    unpubQuery.filter.published = some false
    ∧ (intoNonOwner unpubQuery).toOption.map StoreQuery.filters
        = some
          [{ published := some false, protocol := some "http://chat.xyz",
             author := some (OneOrMany.one "bob") },
           { published := some false, protocol := some "http://chat.xyz",
             recipient := some (OneOrMany.one "bob") }]
    ∧ ((intoNonOwner unpubQuery).toOption.map (fun sq =>
        sq.filters.all (fun f => f.published == some false))) = some true := by
  decide

/-- C7 (amended): for every query carrying an authorization, the rewritten
store query is — in order — a copy of the request filter with
`published = true` when the request left `published` unset (omitted when the
request pinned `published = false`), a copy with the author replaced by the
requester and `published = false`, a copy with the recipient replaced by the
requester and `published = false`, and, when a protocol role is invoked, a
copy with `published = false` that keeps the original author and recipient
clauses; sort and pagination carry over. -/
theorem intoNonOwner_filters (q : RecordsQueryMsg) (a : QueryAuthzn)
    (hauth : q.authorization = some a) :
    intoNonOwner q = Except.ok
      { sort := q.dateSort, pagination := q.pagination,
        filters :=
          (if q.filter.published = none then [{ q.filter with published := some true }] else [])
          ++ [{ q.filter with author := some (OneOrMany.one a.author), published := some false },
              { q.filter with recipient := some (OneOrMany.one a.author),
                               published := some false }]
          ++ (if a.protocolRole.isSome then [{ q.filter with published := some false }]
              else []) } := by
  rcases q with ⟨filter, dateSort, pagination, authorization⟩
  subst hauth
  rcases filter with ⟨rid, author, attester, recipient, contextId, parentId, protocol,
    protocolPath, schema, dataFormat, tags, dataCid, dataSize, published, datePublished,
    dateCreated, dateUpdated⟩
  simp only [intoNonOwner, RecordsFilter.addAuthor, RecordsFilter.addRecipient,
    RecordsFilter.withPublished]

/-- Authorization of a role-carrying non-owner query. -/
def roleAuthzn : QueryAuthzn :=
  { author := "bob", protocolRole := some "chat/participant" }

/-- A non-owner role-carrying query with `published` unset. -/
def roleQuery : RecordsQueryMsg :=
  { filter := { protocol := some "http://chat.xyz" },
    dateSort := some DateSort.timestampAsc,
    authorization := some roleAuthzn }

/-- Witness for the amended C7 theorem at a concrete role-carrying query. -/
theorem intoNonOwner_filters_witness :
    intoNonOwner roleQuery = Except.ok
      { sort := roleQuery.dateSort, pagination := roleQuery.pagination,
        filters :=
          (if roleQuery.filter.published = none then
            [{ roleQuery.filter with published := some true }] else [])
          ++ [{ roleQuery.filter with author := some (OneOrMany.one roleAuthzn.author),
                                      published := some false },
              { roleQuery.filter with recipient := some (OneOrMany.one roleAuthzn.author),
                                      published := some false }]
          ++ (if roleAuthzn.protocolRole.isSome then
              [{ roleQuery.filter with published := some false }] else []) } :=
  intoNonOwner_filters roleQuery roleAuthzn (by decide)

/-! ## Messages query authorization (`src/messages/query.rs`) -/

/-- Modelled from the spec: one `MessagesFilter` of the event-log query
(`src/messages.rs` is not under `src/`): optional interface, method,
protocol and timestamp-range constraints (§4.7). -/
structure MessagesFilter where
  interfaceName : Option String := none
  methodName : Option String := none
  protocol : Option String := none
  messageTimestamp : Option DateRange := none
deriving DecidableEq, Repr

/-- Modelled from the spec: the scope of a permission grant as read by the
messages-query authorizer (`grant.data.scope.protocol()`; the grants module
is not under `src/`). -/
structure MsgGrant where
  scopeProtocol : Option String := none
deriving DecidableEq, Repr

/-- A `MessagesQuery` restricted to the fields its authorizer reads: the
resolved author, the signature payload's `permission_grant_id`, and the
descriptor's filter vector. -/
structure MessagesQueryMsg where
  author : String
  permissionGrantId : Option String := none
  filters : List MessagesFilter := []
deriving DecidableEq, Repr

/-- Embedding of `Query::authorize` (`messages/query.rs` lines 74-102): the
owner passes; a non-owner must carry a `permission_grant_id`; the grant is
fetched (`fetchGrant`, the external `grants::fetch_grant`) and verified
(`verifyGrant`, the external `Grant::verify`); a grant scope with no
protocol is unrestricted; otherwise every filter's protocol must equal the
scope protocol. -/
def messagesAuthorize (fetchGrant : String → Except DwnError MsgGrant)
    (verifyGrant : MsgGrant → Option DwnError) (owner : String)
    (q : MessagesQueryMsg) : Option DwnError :=
  if q.author = owner then none
  else
    match q.permissionGrantId with
    | none => some (DwnError.forbidden "author has no grant")
    | some gid =>
      match fetchGrant gid with
      | Except.error e => some e
      | Except.ok grant =>
        match verifyGrant grant with
        | some e => some e
        | none =>
          match grant.scopeProtocol with
          | none => none
          | some p =>
            if q.filters.any (fun f => f.protocol ≠ some p) then
              some (DwnError.forbidden "filter and grant protocols do not match")
            else none

/-- C8: a non-owner messages query with no `permission_grant_id` is rejected
with `Forbidden`; and when the presented grant fetches and verifies and its
scope names a protocol, the query is authorized exactly when every filter's
(optional) protocol equals the scope protocol — any differing filter forces
`Forbidden`. -/
theorem messages_query_protocol_scope (fetchGrant : String → Except DwnError MsgGrant)
    (verifyGrant : MsgGrant → Option DwnError) (owner : String) (q : MessagesQueryMsg)
    (grant : MsgGrant) (p : String) (hna : q.author ≠ owner) :
    (q.permissionGrantId = none →
      messagesAuthorize fetchGrant verifyGrant owner q
        = some (DwnError.forbidden "author has no grant"))
    ∧ (∀ gid, q.permissionGrantId = some gid → fetchGrant gid = Except.ok grant →
        verifyGrant grant = none → grant.scopeProtocol = some p →
        (messagesAuthorize fetchGrant verifyGrant owner q = none
          ↔ ∀ f ∈ q.filters, f.protocol = some p)) := by
  constructor
  · intro hg
    unfold messagesAuthorize
    simp [hna, hg]
  · intro gid hg hf hv hs
    unfold messagesAuthorize
    simp only [hna, if_false, hg, hf, hv, hs]
    by_cases hany : q.filters.any (fun f => f.protocol ≠ some p)
    · simp only [hany, if_true]
      constructor
      · intro h
        exact absurd h (by simp)
      · intro hall
        rcases List.any_eq_true.mp hany with ⟨f, hfm, hne⟩
        exact absurd (hall f hfm) (by simpa using hne)
    · simp only [hany, if_false]
      constructor
      · intro _ f hfm
        by_contra hne
        exact hany (List.any_eq_true.mpr ⟨f, hfm, by simpa using hne⟩)
      · intro _
        rfl

/-- A non-owner messages query carrying a grant and two filters, both naming
the grant's scope protocol. -/
def scopedQuery : MessagesQueryMsg :=
  { author := "bob", permissionGrantId := some "grant1",
    filters := [{ protocol := some "http://chat.xyz" },
                { protocol := some "http://chat.xyz", methodName := some "Write" }] }

/-- The grant presented by `scopedQuery`, scoped to `http://chat.xyz`. -/
def scopedGrant : MsgGrant := { scopeProtocol := some "http://chat.xyz" }

/-- Witness for the C8 theorem at a concrete grant-scoped query. -/
theorem messages_query_protocol_scope_witness :
    ((MessagesQueryMsg.permissionGrantId scopedQuery) = none →
      messagesAuthorize (fun _ => Except.ok scopedGrant) (fun _ => none) "alice" scopedQuery
        = some (DwnError.forbidden "author has no grant"))
    ∧ (∀ gid, (MessagesQueryMsg.permissionGrantId scopedQuery) = some gid →
        (fun _ => Except.ok scopedGrant : String → Except DwnError MsgGrant) gid
          = Except.ok scopedGrant →
        (fun _ => none : MsgGrant → Option DwnError) scopedGrant = none →
        scopedGrant.scopeProtocol = some "http://chat.xyz" →
        (messagesAuthorize (fun _ => Except.ok scopedGrant) (fun _ => none) "alice" scopedQuery
            = none
          ↔ ∀ f ∈ scopedQuery.filters, f.protocol = some "http://chat.xyz")) :=
  messages_query_protocol_scope (fun _ => Except.ok scopedGrant) (fun _ => none) "alice"
    scopedQuery scopedGrant "http://chat.xyz" (by decide)

/-! ## Records read (`src/records/read.rs`) -/

/-- Modelled from the spec: the authorization fields the read path reads
(`src/authorization.rs` is not under `src/`): the resolved author and the
signature payload's `permission_grant_id`.  Embedded reads carry no
delegated grant. -/
structure ReadAuthzn where
  author : String
  permissionGrantId : Option String := none
deriving DecidableEq, Repr

/-- A `RecordsRead` message restricted to the fields the read authorization
and handler read: an optional authorization and the descriptor filter. -/
structure ReadMsg where
  filter : RecordsFilter := {}
  authorization : Option ReadAuthzn := none
deriving DecidableEq, Repr

/-- Embedding of `Read::authorize` (`read.rs` lines 176-227): a read with no
authorization passes immediately; published records pass; the owner, the
record recipient and the record author pass; a carried grant defers to the
permission engine (`permitGrant`, external `permissions`); a protocol record
defers to the protocol engine (`permitProtocol`); anything else is
forbidden. -/
def authorizeRead (permitGrant permitProtocol : ReadMsg → WriteMsg → Option DwnError)
    (owner : String) (read : ReadMsg) (w : WriteMsg) : Option DwnError :=
  match read.authorization with
  | none => none
  | some authzn =>
    if w.published.getD false then none
    else if authzn.author = owner then none
    else if (match w.recipient with
             | some recipient => decide (authzn.author = recipient)
             | none => false) then none
    else if authzn.author = w.author then none
    else
      match authzn.permissionGrantId with
      | some _ => permitGrant read w
      | none =>
        match w.protocol with
        | some _ => permitProtocol read w
        | none => some (DwnError.forbidden "read cannot be authorized")

/-- Reply body assembled by the read handler. -/
structure ReadReplyModel where
  recordsWrite : Option WriteMsg := none
  initialWrite : Option WriteMsg := none
  data : Option (List Nat) := none
deriving DecidableEq, Repr

/-- Embedding of the `RecordsRead` handler (`handle`, `read.rs` lines
24-110).  The message-store query driven by the read filter and the
data/initial-write fetches are provider operations whose implementations are
not under `src/`; they are passed as `storeQuery`, `fetchData`
(`DataStream::from_store` by `data_cid`) and `fetchInitial` (the archived
initial-write lookup by `record_id`).  The source's `RecordsDelete` branch
is commented out, so a delete entry falls through to `Write::try_from` and
fails; otherwise the handler authorizes, attaches data from `encoded_data`
or the block store, and attaches the initial write for non-initial
records. -/
def handleRead (storeQuery : ReadMsg → List Entry)
    (fetchData : String → Option (List Nat))
    (fetchInitial : String → Option WriteMsg)
    (permitGrant permitProtocol : ReadMsg → WriteMsg → Option DwnError)
    (owner : String) (read : ReadMsg) : Except DwnError ReadReplyModel :=
  match storeQuery read with
  | [] => Except.error (DwnError.notFound "no matching records found")
  | _ :: _ :: _ => Except.error (DwnError.unexpected "multiple messages exist")
  | [entry] =>
    match entry.message with
    | REntryType.delete _ => Except.error (DwnError.unexpected "expected RecordsWrite message")
    | REntryType.write w =>
      match authorizeRead permitGrant permitProtocol owner read w with
      | some e => Except.error e
      | none =>
        let data :=
          match w.encodedData with
          | some bytes => some bytes
          | none => fetchData w.dataCid
        if w.initial then
          Except.ok { recordsWrite := some { w with encodedData := none },
                      initialWrite := none, data := data }
        else
          match fetchInitial w.recordId with
          | none => Except.error (DwnError.unexpected "initial write not found")
          | some iw =>
            Except.ok { recordsWrite := some { w with encodedData := none },
                        initialWrite := some { iw with encodedData := none }, data := data }

/-- C10: a `RecordsRead` whose `authorization` is absent passes
`Read::authorize` against every stored write — published or not — with no
signature, grant, role, recipient or author check consulted (the grant and
protocol engines are universally quantified and never reached), and the
handler then returns the record together with its data. -/
theorem read_without_authorization_returns_record
    (permitGrant permitProtocol : ReadMsg → WriteMsg → Option DwnError)
    (storeQuery : ReadMsg → List Entry) (fetchData : String → Option (List Nat))
    (fetchInitial : String → Option WriteMsg) (owner : String) (read : ReadMsg)
    (entry : Entry) (w : WriteMsg) (bytes : List Nat)
    (hn : read.authorization = none)
    (hq : storeQuery read = [entry])
    (hm : entry.message = REntryType.write w)
    (hinit : w.initial = true)
    (hdata : w.encodedData = some bytes) :
    authorizeRead permitGrant permitProtocol owner read w = none
    ∧ handleRead storeQuery fetchData fetchInitial permitGrant permitProtocol owner read
        = Except.ok { recordsWrite := some { w with encodedData := none },
                      initialWrite := none, data := some bytes } := by
  have hauth : authorizeRead permitGrant permitProtocol owner read w = none := by
    unfold authorizeRead
    rw [hn]
  refine ⟨hauth, ?_⟩
  unfold handleRead
  rw [hq]
  simp only [hm, hauth, hdata, hinit, if_true]

/-- An unpublished record addressed to carol, with inline data. -/
def privateWrite : WriteMsg :=
  { cid := "cidQ", recordId := "Q", parentId := none, dataCid := "dataQ",
    ts := 1, author := "alice", initial := true, protocol := none,
    published := some false, recipient := some "carol", encodedData := some [7, 7, 7] }

/-- An anonymous read (no authorization) of record `Q`. -/
def anonRead : ReadMsg :=
  { filter := { recordId := some "Q" }, authorization := none }

/-- Witness for the C10 theorem: the anonymous read of the unpublished
record is authorized and returns the record with its data. -/
theorem read_without_authorization_returns_record_witness :
    authorizeRead (fun _ _ => some (DwnError.forbidden "grant denied"))
        (fun _ _ => some (DwnError.forbidden "protocol denied")) "alice" anonRead privateWrite
      = none
    ∧ handleRead (fun _ => [Entry.ofWrite privateWrite]) (fun _ => none) (fun _ => none)
        (fun _ _ => some (DwnError.forbidden "grant denied"))
        (fun _ _ => some (DwnError.forbidden "protocol denied")) "alice" anonRead
      = Except.ok { recordsWrite := some { privateWrite with encodedData := none },
                    initialWrite := none, data := some [7, 7, 7] } :=
  read_without_authorization_returns_record
    (fun _ _ => some (DwnError.forbidden "grant denied"))
    (fun _ _ => some (DwnError.forbidden "protocol denied"))
    (fun _ => [Entry.ofWrite privateWrite]) (fun _ => none) (fun _ => none)
    "alice" anonRead (Entry.ofWrite privateWrite) privateWrite [7, 7, 7]
    (by decide) rfl (by decide) (by decide) (by decide)

end DWN
